import Mathlib

/-!
Verification of the paperframe client's display subsystem.

The development shallowly embeds the Go sources:
- the frame converter and panel driver of src/epd7in5v2/epd7in5v2.go
  (`Convert`, `Clear`, `waitUntilIdle`, the geometry computed in `New`);
- the command dispatch and service loop of src/paperframe.go, in both the
  newer (viper-configured) and older variants contained in that file.

Machine integers are modelled as `Nat` with explicit `% 2^32` where Go's
uint32 arithmetic can wrap.  Time is modelled in abstract units: the Go
condition `time.Since(lastUpdated).Hours() >= float64(CLEAR_AFTER)` becomes
`clearAfter ≤ now - lastUpdated` with the threshold pre-scaled to the same
units (the comparison is monotone in the elapsed time, which is all the
scheduler properties use).
-/

/-! ## Frame converter (src/epd7in5v2/epd7in5v2.go) -/

/-- Result of Go `color.Color.RGBA()`: alpha-premultiplied 16-bit components
carried in uint32s. -/
structure GoColor where
  r : Nat
  g : Nat
  b : Nat
  a : Nat

/-- Modulus of Go's uint32 arithmetic. -/
def M32 : Nat := 4294967296

/-- Go `image/color.sqDiff`: `d := x - y` with uint32 wraparound, then
`(d * d) >> 2` in uint32.  The wrapping difference `(x - y) mod 2^32` is
written `((M32 - y % M32) + x % M32) % M32`, which is equal to it for all
x and y. -/
def sqDiff (x y : Nat) : Nat :=
  let d := ((M32 - y % M32) + x % M32) % M32
  (d * d % M32) >>> 2

/-- The squared-distance sum Go `color.Palette.Index` computes for one
candidate color (four uint32 additions; each partial sum stays below 2^32
because every `sqDiff` is at most 2^30, and the `% M32` makes the wrap
explicit). -/
def colorDistance (c v : GoColor) : Nat :=
  (((sqDiff c.r v.r + sqDiff c.g v.g) % M32 + sqDiff c.b v.b) % M32
    + sqDiff c.a v.a) % M32

/-- Loop state of Go `color.Palette.Index`: the index of the next candidate,
the best index so far (`ret`), and its distance (`bestSum`). -/
structure IndexState where
  idx : Nat
  ret : Nat
  bestSum : Nat

/-- One iteration of the `for i, v := range p` loop in `color.Palette.Index`. -/
def indexStep (c : GoColor) (st : IndexState) (v : GoColor) : IndexState :=
  let sum := colorDistance c v
  if sum < st.bestSum then ⟨st.idx + 1, st.idx, sum⟩
  else ⟨st.idx + 1, st.ret, st.bestSum⟩

/-- Go `color.White.RGBA()`. -/
def whiteRGBA : GoColor := ⟨65535, 65535, 65535, 65535⟩

/-- Go `color.Black.RGBA()`. -/
def blackRGBA : GoColor := ⟨0, 0, 0, 65535⟩

/-- `color.Palette([]color.Color{color.White, color.Black}).Index(c)` as
called by `Convert`: the loop starts from `ret = 0`, `bestSum = 1<<32 - 1`
and returns the index of the nearest of the two palette tones
(White = 0, Black = 1). -/
def paletteIndex (c : GoColor) : Nat :=
  (([whiteRGBA, blackRGBA]).foldl (indexStep c) ⟨0, 0, M32 - 1⟩).ret

/-- A Go `image.Image` as `Convert` consumes it: its bounds rectangle
(`Bounds().Min`, `Bounds().Max`) and its `At` function over absolute plane
coordinates. -/
structure GoImage where
  minX : Int
  minY : Int
  maxX : Int
  maxY : Int
  atF : Int → Int → GoColor

/-- Go `img.Bounds().Dx()`. -/
def dxI (img : GoImage) : Int := img.maxX - img.minX

/-- Go `img.Bounds().Dy()`. -/
def dyI (img : GoImage) : Int := img.maxY - img.minY

/-- `EPD_WIDTH` of the driver. -/
def EPD_WIDTH : Nat := 800

/-- `EPD_HEIGHT` of the driver. -/
def EPD_HEIGHT : Nat := 480

/-- The per-row byte count `New` computes, abstracted over the width:
`if EPD_WIDTH%8 == 0 then EPD_WIDTH/8 else EPD_WIDTH/8+1`. -/
def widthByteOf (w : Nat) : Nat := if w % 8 = 0 then w / 8 else w / 8 + 1

/-- `e.widthByte` as set by `New`. -/
def widthByte : Nat := widthByteOf EPD_WIDTH

/-- `e.heightByte` as set by `New`. -/
def heightByte : Nat := EPD_HEIGHT

/-- `bgColor` in `Convert`. -/
def bgColor : Nat := 1

/-- The `bit` computed for device pixel (i, j) in `Convert`'s loop body:
the nearest-palette index of `img.At(i, j)` when `i < Dx && j < Dy`
(absolute coordinates, bounds compared against the bounds' extent),
otherwise `bgColor`. -/
def pixelBit (img : GoImage) (i j : Nat) : Nat :=
  if (i : Int) < dxI img ∧ (j : Int) < dyI img then paletteIndex (img.atF i j)
  else bgColor

/-- The body of `Convert`'s two nested loops, traversing the device pixel
coordinates in row-major order (the list carries the (j, i) pairs the loops
enumerate); `byteToSend` and `buffer` are the two mutable variables of the
Go code, threaded through the recursion, and the buffer is returned when
the loops end. -/
def convertScan (img : GoImage) : List (Nat × Nat) → Nat → List Nat → List Nat
  | [], _, buffer => buffer
  | (j, i) :: rest, byteToSend, buffer =>
    let bit := pixelBit img i j
    let b := if bit = 1 then byteToSend ||| (128 >>> (i % 8)) else byteToSend
    if i % 8 = 7 then
      convertScan img rest 0 (buffer.set (i / 8 + j * widthByte) b)
    else convertScan img rest b buffer

/-- The (j, i) pairs of one pass of `Convert`'s inner loop for row j:
`for i := 0; i < EPD_WIDTH; i++`. -/
def rowPositions (j : Nat) : List (Nat × Nat) :=
  (List.range EPD_WIDTH).map (fun i => (j, i))

/-- All (j, i) pairs of `Convert`'s nested loops, row-major:
`for j := 0; j < EPD_HEIGHT; j++ { for i := 0; i < EPD_WIDTH; i++ }`. -/
def scanPositions : List (Nat × Nat) :=
  (List.range EPD_HEIGHT).flatMap rowPositions

/-- `Convert`: runs the scan from `byteToSend = 0x00` over a
`widthByte*heightByte` buffer of zero bytes. -/
def convert (img : GoImage) : List Nat :=
  convertScan img scanPositions 0 (List.replicate (widthByte * heightByte) 0)

/-- The buffer `Clear` transmits:
`bytes.Repeat([]byte{0x00}, e.heightByte*e.widthByte)`. -/
def clearFrame : List Nat := List.replicate (heightByte * widthByte) 0

/-! ### The palette quantization returns 0 or 1 -/

theorem paletteIndex_zero_or_one (c : GoColor) :
    paletteIndex c = 0 ∨ paletteIndex c = 1 := by
  unfold paletteIndex
  simp only [List.foldl, indexStep]
  split <;> split <;> simp

theorem pixelBit_zero_or_one (img : GoImage) (i j : Nat) :
    pixelBit img i j = 0 ∨ pixelBit img i j = 1 := by
  unfold pixelBit
  split
  · exact paletteIndex_zero_or_one _
  · right; rfl


/-! ### Closed form of the conversion loop -/

def chunkPositions (j k : Nat) : List (Nat × Nat) :=
  (List.range 8).map (fun m => (j, 8 * k + m))

def partialByte (img : GoImage) (j k : Nat) : Nat → Nat
  | 0 => 0
  | m + 1 =>
    if pixelBit img (8 * k + m) j = 1 then partialByte img j k m ||| (128 >>> m)
    else partialByte img j k m

def chunkByte (img : GoImage) (j k : Nat) : Nat := partialByte img j k 8

theorem chunkPositions_eq (j k : Nat) : chunkPositions j k
    = [(j, 8*k), (j, 8*k+1), (j, 8*k+2), (j, 8*k+3),
       (j, 8*k+4), (j, 8*k+5), (j, 8*k+6), (j, 8*k+7)] := rfl

theorem scan_chunk (img : GoImage) (j k : Nat) (rest : List (Nat × Nat)) (buf : List Nat) :
    convertScan img (chunkPositions j k ++ rest) 0 buf
      = convertScan img rest 0 (buf.set (k + j * widthByte) (chunkByte img j k)) := by
  have h0 : (8 * k) % 8 = 0 := by omega
  have h1 : (8 * k + 1) % 8 = 1 := by omega
  have h2 : (8 * k + 2) % 8 = 2 := by omega
  have h3 : (8 * k + 3) % 8 = 3 := by omega
  have h4 : (8 * k + 4) % 8 = 4 := by omega
  have h5 : (8 * k + 5) % 8 = 5 := by omega
  have h6 : (8 * k + 6) % 8 = 6 := by omega
  have h7 : (8 * k + 7) % 8 = 7 := by omega
  have hd : (8 * k + 7) / 8 = k := by omega
  rw [chunkPositions_eq]
  simp only [List.cons_append, List.nil_append]
  simp only [convertScan, h0, h1, h2, h3, h4, h5, h6, h7, hd]
  norm_num
  congr 1
  simp only [chunkByte, partialByte]
  norm_num

def setChunk (img : GoImage) (j : Nat) (b : List Nat) (k : Nat) : List Nat :=
  b.set (k + j * widthByte) (chunkByte img j k)

theorem map_range_mul8 (j : Nat) : ∀ n : Nat,
    (List.range (8 * n)).map (fun i => (j, i))
      = (List.range n).flatMap (chunkPositions j) := by
  intro n
  induction n with
  | zero => simp
  | succ n ih =>
    have h8 : 8 * (n + 1) = 8 * n + 8 := by ring
    rw [h8, List.range_add, List.map_append, ih]
    conv_rhs => rw [List.range_succ]
    rw [List.flatMap_append]
    congr 1

theorem rowPositions_chunks (j : Nat) :
    rowPositions j = (List.range widthByte).flatMap (chunkPositions j) := by
  have : EPD_WIDTH = 8 * widthByte := rfl
  rw [rowPositions, this, map_range_mul8]

theorem scan_row (img : GoImage) (j : Nat) : ∀ (n : Nat) (rest : List (Nat × Nat)) (buf : List Nat),
    convertScan img ((List.range n).flatMap (chunkPositions j) ++ rest) 0 buf
      = convertScan img rest 0 ((List.range n).foldl (setChunk img j) buf) := by
  intro n
  induction n with
  | zero => simp
  | succ n ih =>
    intro rest buf
    rw [List.range_succ, List.flatMap_append, List.append_assoc, ih, List.foldl_append]
    simp only [List.flatMap_cons, List.flatMap_nil, List.append_nil, List.foldl_cons,
      List.foldl_nil]
    rw [scan_chunk]
    rfl

theorem scan_frame (img : GoImage) : ∀ (h : Nat) (rest : List (Nat × Nat)) (buf : List Nat),
    convertScan img ((List.range h).flatMap rowPositions ++ rest) 0 buf
      = convertScan img rest 0
          ((List.range h).foldl (fun b j => (List.range widthByte).foldl (setChunk img j) b) buf) := by
  intro h
  induction h with
  | zero => simp
  | succ h ih =>
    intro rest buf
    rw [List.range_succ, List.flatMap_append, List.append_assoc, ih, List.foldl_append]
    simp only [List.flatMap_cons, List.flatMap_nil, List.append_nil, List.foldl_cons,
      List.foldl_nil]
    rw [rowPositions_chunks, scan_row]

def frameBytes (img : GoImage) : List Nat :=
  (List.range EPD_HEIGHT).foldl (fun b j => (List.range widthByte).foldl (setChunk img j) b)
    (List.replicate (widthByte * heightByte) 0)

theorem convert_eq_frameBytes (img : GoImage) : convert img = frameBytes img := by
  unfold convert frameBytes scanPositions
  rw [← List.append_nil ((List.range EPD_HEIGHT).flatMap rowPositions), scan_frame]
  rfl

theorem getD_set_ne (l : List Nat) (i p v : Nat) (h : i ≠ p) :
    (l.set i v).getD p 0 = l.getD p 0 := by
  rw [List.getD_eq_getElem?_getD, List.getD_eq_getElem?_getD, List.getElem?_set_ne h]

theorem getD_set_self (l : List Nat) (p v : Nat) (h : p < l.length) :
    (l.set p v).getD p 0 = v := by
  rw [List.getD_eq_getElem?_getD, List.getElem?_set_self h]
  rfl

theorem length_row_fold (img : GoImage) (j : Nat) : ∀ (l : List Nat) (buf : List Nat),
    (l.foldl (setChunk img j) buf).length = buf.length := by
  intro l
  induction l with
  | nil => intro buf; rfl
  | cons k l ih =>
    intro buf
    rw [List.foldl_cons, ih]
    simp [setChunk]

theorem length_frame_fold (img : GoImage) : ∀ (rows : List Nat) (buf : List Nat),
    (rows.foldl (fun b j => (List.range widthByte).foldl (setChunk img j) b) buf).length
      = buf.length := by
  intro rows
  induction rows with
  | nil => intro buf; rfl
  | cons j rows ih =>
    intro buf
    rw [List.foldl_cons, ih, length_row_fold]

theorem getD_row_fold_lo (img : GoImage) (j : Nat) : ∀ (n : Nat) (buf : List Nat) (p : Nat),
    p < j * widthByte →
    ((List.range n).foldl (setChunk img j) buf).getD p 0 = buf.getD p 0 := by
  intro n
  induction n with
  | zero => intro buf p _; rfl
  | succ n ih =>
    intro buf p hp
    rw [List.range_succ, List.foldl_append, List.foldl_cons, List.foldl_nil, setChunk,
      getD_set_ne _ _ _ _ (Nat.ne_of_gt (Nat.lt_of_lt_of_le hp (Nat.le_add_left _ n)))]
    exact ih buf p hp

theorem getD_row_fold_self (img : GoImage) (j : Nat) :
    ∀ (n : Nat) (buf : List Nat) (k : Nat), k < n → n ≤ widthByte → j < heightByte →
    buf.length = widthByte * heightByte →
    ((List.range n).foldl (setChunk img j) buf).getD (k + j * widthByte) 0
      = chunkByte img j k := by
  intro n
  induction n with
  | zero => intro buf k hk _ _ _; omega
  | succ n ih =>
    intro buf k hk hn hj hlen
    rw [List.range_succ, List.foldl_append, List.foldl_cons, List.foldl_nil, setChunk]
    by_cases hkn : k = n
    · subst hkn
      apply getD_set_self
      rw [length_row_fold, hlen]
      calc k + j * widthByte < widthByte + j * widthByte :=
            Nat.add_lt_add_right (by omega) _
        _ = (j + 1) * widthByte := by ring
        _ ≤ heightByte * widthByte := Nat.mul_le_mul_right _ (by omega)
        _ = widthByte * heightByte := Nat.mul_comm _ _
    · rw [getD_set_ne _ _ _ _ (fun hEq => hkn (Nat.add_right_cancel hEq).symm)]
      exact ih buf k (by omega) (by omega) hj hlen

theorem getD_frame_fold (img : GoImage) :
    ∀ (h : Nat) (buf : List Nat) (j0 k0 : Nat), j0 < h → h ≤ heightByte → k0 < widthByte →
    buf.length = widthByte * heightByte →
    ((List.range h).foldl (fun b j => (List.range widthByte).foldl (setChunk img j) b) buf).getD
        (k0 + j0 * widthByte) 0 = chunkByte img j0 k0 := by
  intro h
  induction h with
  | zero => intro buf j0 k0 hj0 _ _ _; omega
  | succ h ih =>
    intro buf j0 k0 hj0 hh hk0 hlen
    rw [List.range_succ, List.foldl_append, List.foldl_cons, List.foldl_nil]
    by_cases hjh : j0 = h
    · subst hjh
      exact getD_row_fold_self img j0 widthByte _ k0 hk0 le_rfl (by omega)
        (by rw [length_frame_fold, hlen])
    · rw [getD_row_fold_lo img h widthByte _ _
        (by calc k0 + j0 * widthByte < widthByte + j0 * widthByte :=
              Nat.add_lt_add_right hk0 _
          _ = (j0 + 1) * widthByte := by ring
          _ ≤ h * widthByte := Nat.mul_le_mul_right _ (by omega))]
      exact ih buf j0 k0 (by omega) (by omega) hk0 hlen

theorem frameBytes_getD (img : GoImage) (j k : Nat) (hj : j < heightByte) (hk : k < widthByte) :
    (frameBytes img).getD (k + j * widthByte) 0 = chunkByte img j k := by
  unfold frameBytes
  exact getD_frame_fold img EPD_HEIGHT _ j k hj le_rfl hk (by simp)

theorem convert_length_aux (img : GoImage) :
    (convert img).length = widthByte * heightByte := by
  rw [convert_eq_frameBytes]
  unfold frameBytes
  rw [length_frame_fold]
  simp

set_option maxHeartbeats 3200000 in
theorem chunkByte_bit (img : GoImage) (j k m : Nat) (hm : m < 8) :
    (chunkByte img j k >>> (7 - m)) &&& 1 = pixelBit img (8 * k + m) j := by
  simp only [chunkByte, partialByte, Nat.add_zero]
  have q0 := pixelBit_zero_or_one img (8 * k) j
  have q1 := pixelBit_zero_or_one img (8 * k + 1) j
  have q2 := pixelBit_zero_or_one img (8 * k + 2) j
  have q3 := pixelBit_zero_or_one img (8 * k + 3) j
  have q4 := pixelBit_zero_or_one img (8 * k + 4) j
  have q5 := pixelBit_zero_or_one img (8 * k + 5) j
  have q6 := pixelBit_zero_or_one img (8 * k + 6) j
  have q7 := pixelBit_zero_or_one img (8 * k + 7) j
  have hm8 : m = 0 ∨ m = 1 ∨ m = 2 ∨ m = 3 ∨ m = 4 ∨ m = 5 ∨ m = 6 ∨ m = 7 := by omega
  rcases hm8 with rfl | rfl | rfl | rfl | rfl | rfl | rfl | rfl <;>
    (try simp only [Nat.add_zero]) <;>
    rcases q0 with h0 | h0 <;> rw [h0] <;>
    rcases q1 with h1 | h1 <;> rw [h1] <;>
    rcases q2 with h2 | h2 <;> rw [h2] <;>
    rcases q3 with h3 | h3 <;> rw [h3] <;>
    rcases q4 with h4 | h4 <;> rw [h4] <;>
    rcases q5 with h5 | h5 <;> rw [h5] <;>
    rcases q6 with h6 | h6 <;> rw [h6] <;>
    rcases q7 with h7 | h7 <;> rw [h7] <;>
    decide

/-- C4: for every source image and every device pixel (i, j) in row-major
order, the bit `Convert` emits — bit 7 - (i mod 8) of byte i/8 + j*widthByte,
i.e. 8 consecutive horizontal pixels packed into one byte most significant
bit first — equals the nearest-palette index of the source pixel when (i, j)
passes the bounds check, and the background tone bit otherwise
(`pixelBit`). -/
theorem c4_convert_per_pixel (img : GoImage) (i j : Nat) (hi : i < EPD_WIDTH) (hj : j < EPD_HEIGHT) :
    ((convert img).getD (i / 8 + j * widthByte) 0 >>> (7 - i % 8)) &&& 1
      = pixelBit img i j := by
  have hi' : i < 800 := hi
  have hk : i / 8 < widthByte := by
    have hw : widthByte = 100 := rfl
    omega
  rw [convert_eq_frameBytes, frameBytes_getD img j (i / 8) hj hk,
    chunkByte_bit img j (i / 8) (i % 8) (by omega), Nat.div_add_mod i 8]

/-! ## Refresh scheduler (src/paperframe.go, newer variant, service tick
handler at lines 185-249) -/

/-- The scheduler state the service loop mutates: `currentId` and
`lastUpdated`. -/
structure TickState where
  currentId : String
  lastUpdated : Nat

/-- Result of `getCurrentId()` at a tick: a transport/HTTP error or an
identifier string. -/
inductive IdFetch
  | fetchErr
  | fetchOk (id : String)

/-- What one tick produces: the new scheduler state and how many
`displayImage` and `displayClear` calls the tick issued. -/
structure TickOut where
  state : TickState
  displays : Nat
  clears : Nat

/-- The burn-in guard repeated in each failure/unchanged branch of the tick
handler: `if time.Since(lastUpdated).Hours() >= float64(CLEAR_AFTER)` then
`displayClear` and `lastUpdated = time.Now()`. -/
def clearCheck (clearAfter now : Nat) (s : TickState) : TickOut :=
  if clearAfter ≤ now - s.lastUpdated then ⟨⟨s.currentId, now⟩, 0, 1⟩
  else ⟨s, 0, 0⟩

/-- One pass of the `CHECK_FREQ`-minute tick handler: fetch the current id;
on error or empty id run the clear check; if the id is unchanged run the
clear check; otherwise download the image (`imgOk` tells whether that
succeeds), displaying it and updating both state fields on success, or
running the clear check on download failure. -/
def tickStep (clearAfter now : Nat) (fetch : IdFetch) (imgOk : String → Bool)
    (s : TickState) : TickOut :=
  match fetch with
  | .fetchErr => clearCheck clearAfter now s
  | .fetchOk id =>
    if id.length = 0 then clearCheck clearAfter now s
    else if id = s.currentId then clearCheck clearAfter now s
    else if imgOk id then ⟨⟨id, now⟩, 1, 0⟩
    else clearCheck clearAfter now s

/-- One failing tick (fetch error) folded into (state, clears issued so
far). -/
def failStep (clearAfter : Nat) (acc : TickState × Nat) (t : Nat) :
    TickState × Nat :=
  ((tickStep clearAfter t .fetchErr (fun _ => false) acc.1).state,
    acc.2 + (tickStep clearAfter t .fetchErr (fun _ => false) acc.1).clears)

/-- A run of consecutive failing ticks at the given times, counting the
clear calls issued. -/
def runFailTicks (clearAfter : Nat) (s : TickState) (ts : List Nat) :
    TickState × Nat :=
  ts.foldl (failStep clearAfter) (s, 0)

/-! ## Busy-wait (src/epd7in5v2/epd7in5v2.go, waitUntilIdle) -/

/-- A GPIO level as `busy.Read()` reports it. -/
inductive GpioLevel
  | low
  | high
deriving DecidableEq

/-- The fixed poll interval of `waitUntilIdle`: `time.Sleep(1000 *
time.Millisecond)` between reads. -/
def pollIntervalMs : Nat := 1000

/-- The loop `for e.busy.Read() == gpio.Low { sleep }` of `waitUntilIdle`:
`read k` is the level the k-th poll observes; the loop returns (with the
number of polls taken) as soon as a read is not Low.  `fuel` bounds how many
polls we unfold; `none` means the loop is still running after `fuel` polls —
the code itself has no bound and no error path. -/
def waitPoll (read : Nat → GpioLevel) : Nat → Nat → Option Nat
  | 0, _ => none
  | fuel + 1, k => if read k = .low then waitPoll read fuel (k + 1) else some k

/-! ## Command dispatch (src/paperframe.go, both variants of run) -/

/-- A hardware command sequence step issued through the Epd handle. -/
inductive PanelOp
  | reset
  | panelInit
  | displayFrame
  | clear
  | sleep
deriving DecidableEq

/-- The panel operations `displayImage` issues: nothing when `epd == nil`
(headless), otherwise Reset, Init, Display, Sleep. -/
def displayImageOps : Option Unit → List PanelOp
  | none => []
  | some _ => [.reset, .panelInit, .displayFrame, .sleep]

/-- The panel operations `displayClear` issues: nothing when `epd == nil`
(headless), otherwise Reset, Init, Clear, Sleep. -/
def displayClearOps : Option Unit → List PanelOp
  | none => []
  | some _ => [.reset, .panelInit, .clear, .sleep]

/-- The externals one `run` invocation consumes: the argv, `runtime.GOARCH`,
the result of `epd7in5v2.New` (none when it errors or returns nil), whether
`viper.ReadInConfig` hit a non-not-found error, the result of
`getCurrentId`, whether `getImage(id)` succeeds (fetch plus decode), and
whether a TERM/INT signal eventually arrives in service mode. -/
structure Env where
  args : List String
  goarch : String
  hwNew : Option Unit
  configFatal : Bool
  currentIdFetch : Option String
  imgFetchOk : String → Bool
  signalArrives : Bool

/-- The hardware-probe prologue of the newer `run` (lines 82-96): on arm,
a failed `New` makes run return 1 (`none` here); off arm the screen init is
skipped and the handle stays nil. -/
def hwProbe (env : Env) : Option (Option Unit) :=
  if env.goarch = "arm" then
    match env.hwNew with
    | none => none
    | some u => some (some u)
  else some none

/-- Exit status of the newer variant's `run` (src/paperframe.go lines
48-278); `none` means run blocks forever (service mode with no signal).
In service mode the only value ever sent on the exit channel is the 0 of
the shutdown goroutine. -/
def runNew (env : Env) : Option Int :=
  if env.configFatal then some 1
  else if env.args.length < 2 then some 1
  else
    match hwProbe env with
    | none => some 1
    | some _ =>
      match env.args.getD 1 "" with
      | "version" => some 0
      | "clear" => some 0
      | "current" =>
        match env.currentIdFetch with
        | none => some 1
        | some id => if env.imgFetchOk id then some 0 else some 1
      | "display" =>
        if env.args.length < 3 then some 1
        else if env.imgFetchOk (env.args.getD 2 "") then some 0 else some 1
      | "service" => if env.signalArrives then some 0 else none
      | _ => some 1

/-- Exit status of the older variant's `run` (second half of
src/paperframe.go, lines 489-589): no config step, the `New` error is
discarded (`epd, _ = ...`), and the `clear` command returns 1 even though
the clear itself cannot fail. -/
def runOld (env : Env) : Option Int :=
  if env.args.length < 2 then some 1
  else
    match env.args.getD 1 "" with
    | "clear" => some 1
    | "current" => if env.imgFetchOk "" then some 0 else some 1
    | "display" =>
      if env.args.length < 3 then some 1
      else if env.imgFetchOk (env.args.getD 2 "") then some 0 else some 1
    | "service" =>
      if env.imgFetchOk "" then (if env.signalArrives then some 0 else none)
      else some 1
    | _ => some 1

/-! ## Shutdown concurrency (src/paperframe.go, newer variant: the ticker
goroutine at lines 182-256 and the shutdown goroutine at lines 259-270).
The two goroutines share no lock; `stopTicker` has capacity 1, so the
shutdown goroutine's send does not block, and nothing makes it wait for a
display sequence the ticker goroutine has in flight. -/

/-- Events of the two goroutines: the ticker's in-flight `displayImage`
hardware steps (tReset, tInit, tDisplay, tSleep) and the shutdown
goroutine's steps — the buffered `stopTicker <- true` send, the
`displayClear` hardware steps, and `exit <- 0`. -/
inductive Ev
  | tReset
  | tInit
  | tDisplay
  | tSleep
  | sStop
  | sReset
  | sInit
  | sClear
  | sSleep
  | sExit
deriving DecidableEq

/-- The in-flight `displayImage` sequence the ticker goroutine still has to
run when the signal arrives. -/
def tickerEvs : List Ev := [.tReset, .tInit, .tDisplay, .tSleep]

/-- The shutdown goroutine after `<-signals`: stop the ticker (buffered,
non-blocking), run `displayClear`, send exit code 0. -/
def shutdownEvs : List Ev := [.sStop, .sReset, .sInit, .sClear, .sSleep, .sExit]

/-- Interleavings of the two goroutines' event lists: each goroutine's own
order is preserved, and with no synchronization between them every
interleaving is schedulable. -/
inductive Interleave : List Ev → List Ev → List Ev → Prop
  | nil : Interleave [] [] []
  | left : ∀ {a l r t}, Interleave l r t → Interleave (a :: l) r (a :: t)
  | right : ∀ {a l r t}, Interleave l r t → Interleave l (a :: r) (a :: t)

/-- The ticker goroutine's hardware steps. -/
def isTickerHw : Ev → Bool
  | .tReset | .tInit | .tDisplay | .tSleep => true
  | _ => false

/-- The shutdown goroutine's hardware steps (its `displayClear`
sequence). -/
def isShutdownHw : Ev → Bool
  | .sReset | .sInit | .sClear | .sSleep => true
  | _ => false

/-- The ordering the spec asserts for scenario 4: in the trace, every step
of the in-flight display sequence happens before every hardware step of the
shutdown clear. -/
def seqCompletesBeforeClear (t : List Ev) : Prop :=
  ∀ p ∈ List.range t.length, ∀ q ∈ List.range t.length,
    isTickerHw (t.getD p .sExit) = true → isShutdownHw (t.getD q .sExit) = true →
    p < q

/-- A schedule in which the shutdown clear runs in the middle of the
in-flight display sequence. -/
def badTrace : List Ev :=
  [.tReset, .tInit, .sStop, .sReset, .sInit, .sClear, .sSleep, .sExit,
   .tDisplay, .tSleep]

/-! ## Sampling geometry of Convert (for the bounds-origin analysis) -/

/-- Device coordinates at which `Convert` samples the source image: the
loop ranges over the panel and the sample is guarded by
`i < img.Bounds().Dx() && j < img.Bounds().Dy()`. -/
def sampleTaken (img : GoImage) (i j : Nat) : Prop :=
  i < EPD_WIDTH ∧ j < EPD_HEIGHT ∧ (i : Int) < dxI img ∧ (j : Int) < dyI img

/-- Membership in the image's bounds rectangle `[Min.X, Max.X) × [Min.Y,
Max.Y)` (Go `image.Rectangle.In` for a point). -/
def inBoundsRect (img : GoImage) (x y : Int) : Prop :=
  img.minX ≤ x ∧ x < img.maxX ∧ img.minY ≤ y ∧ y < img.maxY

/-! ## Claim theorems -/

/-- C2: On a service tick whose fetched identifier equals the stored
`currentId`, no display call occurs, `currentId` is unchanged, and
`lastUpdated` changes only via the clear-after-threshold path: below the
threshold the state is untouched and no clear is issued; at or above it one
clear is issued and `lastUpdated` resets to now. -/
theorem c2_tick_same_id_idempotent (clearAfter now : Nat) (imgOk : String → Bool)
    (s : TickState) :
    tickStep clearAfter now (.fetchOk s.currentId) imgOk s
      = if clearAfter ≤ now - s.lastUpdated then ⟨⟨s.currentId, now⟩, 0, 1⟩
        else ⟨s, 0, 0⟩ := by
  simp only [tickStep, clearCheck]
  by_cases h : s.currentId.length = 0
  · rw [if_pos h]
  · rw [if_neg h]
    simp

theorem runFailTicks_steady (clearAfter : Nat) (st : TickState) :
    ∀ (l : List Nat) (c : Nat), (∀ t ∈ l, t - st.lastUpdated < clearAfter) →
    l.foldl (failStep clearAfter) (st, c) = (st, c) := by
  intro l
  induction l with
  | nil => intro c _; rfl
  | cons t l ih =>
    intro c h
    rw [List.foldl_cons]
    have ht : t - st.lastUpdated < clearAfter := h t (by simp)
    have hstep : failStep clearAfter (st, c) t = (st, c) := by
      simp only [failStep, tickStep, clearCheck]
      rw [if_neg (by omega)]
      simp
    rw [hstep]
    exact ih c (fun u hu => h u (by simp [hu]))

/-- C6: When every tick fails, the first tick `tc` whose elapsed time since
`lastUpdated` reaches the threshold issues exactly one clear and resets
`lastUpdated` to `tc`; the failing ticks before it (all under the
threshold) and after it (all within the threshold of `tc`) issue none. -/
theorem c6_one_clear_on_threshold (clearAfter : Nat) (s : TickState)
    (pre post : List Nat) (tc : Nat)
    (hpre : ∀ t ∈ pre, t - s.lastUpdated < clearAfter)
    (htc : clearAfter ≤ tc - s.lastUpdated)
    (hpost : ∀ t ∈ post, t - tc < clearAfter) :
    runFailTicks clearAfter s (pre ++ tc :: post) = (⟨s.currentId, tc⟩, 1) := by
  unfold runFailTicks
  rw [List.foldl_append, runFailTicks_steady clearAfter s pre 0 hpre,
    List.foldl_cons]
  have hstep : failStep clearAfter (s, 0) tc = (⟨s.currentId, tc⟩, 1) := by
    simp only [failStep, tickStep, clearCheck]
    rw [if_pos htc]
    simp
  rw [hstep]
  exact runFailTicks_steady clearAfter ⟨s.currentId, tc⟩ post 1 hpost

/-- C6 witness: threshold 2, baseline 0; ticks at times 1 (under), 2
(crosses), 3 (within 2 of the reset): one clear, lastUpdated 2. -/
theorem c6_witness :
    runFailTicks 2 ⟨"x", 0⟩ ([1] ++ 2 :: [3]) = (⟨"x", 2⟩, 1) :=
  c6_one_clear_on_threshold 2 ⟨"x", 0⟩ [1] [3] 2 (by decide) (by decide)
    (by decide)

theorem waitPoll_some_of_idle (read : Nat → GpioLevel) :
    ∀ (n k : Nat), read (k + n) ≠ .low → (waitPoll read (n + 1) k).isSome = true := by
  intro n
  induction n with
  | zero =>
    intro k h
    simp only [waitPoll]
    rw [if_neg (by simpa using h)]
    rfl
  | succ n ih =>
    intro k h
    simp only [waitPoll]
    by_cases hk : read k = .low
    · rw [if_pos hk]
      exact ih (k + 1) (by rw [show k + 1 + n = k + (n + 1) from by omega]; exact h)
    · rw [if_neg hk]
      rfl

theorem waitPoll_none_of_low (read : Nat → GpioLevel) (h : ∀ n, read n = .low) :
    ∀ (fuel k : Nat), waitPoll read fuel k = none := by
  intro fuel
  induction fuel with
  | zero => intro k; rfl
  | succ fuel ih =>
    intro k
    simp only [waitPoll]
    rw [if_pos (h k)]
    exact ih (k + 1)

theorem waitPoll_some_idle (read : Nat → GpioLevel) :
    ∀ (fuel k : Nat), (waitPoll read fuel k).isSome = true → ∃ n, read n ≠ .low := by
  intro fuel
  induction fuel with
  | zero => intro k h; simp [waitPoll] at h
  | succ fuel ih =>
    intro k h
    by_cases hk : read k = .low
    · simp only [waitPoll] at h
      rw [if_pos hk] at h
      exact ih (k + 1) h
    · exact ⟨k, hk⟩

/-- C8: `waitUntilIdle` polls the busy line at the fixed 1000 ms interval
with no upper bound: the loop returns exactly when some poll reads a
non-Low (idle) level, and if every poll reads Low it runs forever under any
fuel, raising no error (the model has no error outcome at all). -/
theorem c8_waitUntilIdle_unbounded (read : Nat → GpioLevel) :
    pollIntervalMs = 1000 ∧
    ((∃ fuel, (waitPoll read fuel 0).isSome = true) ↔ (∃ n, read n ≠ .low)) ∧
    ((∀ n, read n = .low) → ∀ fuel k, waitPoll read fuel k = none) := by
  refine ⟨rfl, ⟨?_, ?_⟩, ?_⟩
  · rintro ⟨fuel, h⟩
    exact waitPoll_some_idle read fuel 0 h
  · rintro ⟨n, h⟩
    exact ⟨n + 1, waitPoll_some_of_idle read n 0 (by simpa using h)⟩
  · intro h fuel k
    exact waitPoll_none_of_low read h fuel k

/-- C3 counterexample: the claim says every bit of the clear buffer equals
the background tone the converter uses; but the clear buffer's bytes are
0x00 (every bit 0) while the converter's background tone bit `bgColor`
is 1. -/
theorem c3_counterexample :
    ¬ (∀ b ∈ clearFrame, ∀ m ∈ List.range 8, (b >>> m) &&& 1 = bgColor) := by
  intro h
  have h0 : (0 : Nat) ∈ clearFrame := by
    rw [clearFrame]
    exact List.mem_replicate.mpr ⟨by decide, rfl⟩
  have := h 0 h0 0 (by decide)
  simp [bgColor] at this

/-- C3 amended: `Clear` transmits a buffer of exactly `heightByte *
widthByte` bytes in which every byte is 0x00 (so every bit is 0) — the
opposite of the background tone bit `bgColor = 1` that `Convert` uses for
out-of-bounds pixels. -/
theorem c3_clear_all_zero :
    clearFrame.length = heightByte * widthByte ∧ (∀ b ∈ clearFrame, b = 0) ∧
    bgColor = 1 := by
  refine ⟨by simp [clearFrame], ?_, rfl⟩
  intro b hb
  rw [clearFrame] at hb
  exact (List.mem_replicate.mp hb).2

/-- C5: the per-row byte count of `New` equals ceil(W/8) for every width,
`widthByte` instantiates it at the fixed panel width, the buffer `Convert`
returns always has exactly `widthByte * heightByte` bytes whatever the
source image, and that size is 48000. -/
theorem c5_buffer_geometry :
    (∀ w, widthByteOf w = (w + 7) / 8) ∧
    widthByte = widthByteOf EPD_WIDTH ∧
    (∀ img : GoImage, (convert img).length = widthByte * heightByte) ∧
    widthByte * heightByte = 48000 := by
  refine ⟨?_, rfl, convert_length_aux, by decide⟩
  intro w
  unfold widthByteOf
  split <;> omega

/-- A 1x1 all-white image at the origin, for concrete instantiations. -/
def whiteImg : GoImage := ⟨0, 0, 1, 1, fun _ _ => whiteRGBA⟩

/-- C4 witness: the per-pixel correspondence instantiated at the first
device pixel of a concrete 1x1 white image. -/
theorem c4_convert_per_pixel_witness :
    ((convert whiteImg).getD (0 / 8 + 0 * widthByte) 0 >>> (7 - 0 % 8)) &&& 1
      = pixelBit whiteImg 0 0 :=
  c4_convert_per_pixel whiteImg 0 0 (by decide) (by decide)

/-- The image the C10 analysis instantiates: bounds minimum (1, 1), extent
800x480. -/
def c10Img : GoImage := ⟨1, 1, 801, 481, fun _ _ => blackRGBA⟩

/-- C10 counterexample: the claim says that for an image with a non-zero
bounds origin the sampled coordinates lie outside the bounds rectangle; for
this origin-(1,1) image the sampled device coordinate (2, 3) lies inside
the bounds rectangle. -/
theorem c10_counterexample :
    (c10Img.minX ≠ 0 ∨ c10Img.minY ≠ 0) ∧ sampleTaken c10Img 2 3 ∧
    inBoundsRect c10Img 2 3 := by
  refine ⟨Or.inl (by decide), ?_, ?_⟩ <;>
    simp [sampleTaken, inBoundsRect, c10Img, dxI, dyI, EPD_WIDTH, EPD_HEIGHT]

/-- C10 amended: `Convert` bounds-checks device coordinates against
Dx()/Dy() but samples `At` at the absolute device coordinate; for any image
with a positive bounds origin (in either axis) and nonempty bounds, device
pixel (0,0) is sampled, the sampled coordinate lies outside the bounds
rectangle, and the sampled value is read at absolute (0,0) rather than at
the bounds minimum. -/
theorem c10_absolute_sampling (img : GoImage)
    (horig : 0 < img.minX ∨ 0 < img.minY)
    (hdx : 0 < dxI img) (hdy : 0 < dyI img) :
    sampleTaken img 0 0 ∧ ¬ inBoundsRect img 0 0 ∧
    pixelBit img 0 0 = paletteIndex (img.atF 0 0) := by
  refine ⟨⟨by decide, by decide, by exact_mod_cast hdx, by exact_mod_cast hdy⟩, ?_, ?_⟩
  · rintro ⟨h1, h2, h3, h4⟩
    rcases horig with h | h <;> omega
  · unfold pixelBit
    rw [if_pos ⟨by exact_mod_cast hdx, by exact_mod_cast hdy⟩]
    norm_num

/-- C10 witness: the amended statement instantiated at the origin-(1,1)
image. -/
theorem c10_witness :
    sampleTaken c10Img 0 0 ∧ ¬ inBoundsRect c10Img 0 0 ∧
    pixelBit c10Img 0 0 = paletteIndex (c10Img.atF 0 0) :=
  c10_absolute_sampling c10Img (Or.inl (by decide)) (by decide) (by decide)

/-- Environment where the panel hardware fails to open on arm and argv is
`paperframe clear`. -/
def c1FailEnv : Env :=
  ⟨["paperframe", "clear"], "arm", none, false, none, fun _ => false, false⟩

/-- C1 counterexample: when opening the panel hardware fails (on arm), the
newer run returns exit status 1 — the process exits — rather than
continuing headless and completing the `clear` command with status 0. -/
theorem c1_counterexample :
    runNew c1FailEnv = some 1 ∧ runNew c1FailEnv ≠ some 0 := by decide

/-- C1 amended: headless no-op mode exists only off arm hardware: there the
probe yields a nil handle and both panel command sequences are no-ops; on
arm, a failed hardware open makes the newer run exit with status 1 (the
older variant instead discarded the error). -/
theorem c1_hw_open_failure (env : Env)
    (hconfig : env.configFatal = false) (hargs : 2 ≤ env.args.length) :
    (env.goarch ≠ "arm" → hwProbe env = some none) ∧
    displayImageOps none = [] ∧ displayClearOps none = [] ∧
    (env.goarch = "arm" → env.hwNew = none → runNew env = some 1) := by
  refine ⟨?_, rfl, rfl, ?_⟩
  · intro h
    unfold hwProbe
    rw [if_neg h]
  · intro ha hn
    have hp : hwProbe env = none := by
      unfold hwProbe
      rw [if_pos ha, hn]
    unfold runNew
    rw [if_neg (by simp [hconfig]), if_neg (by omega), hp]

/-- Environment off arm (headless), argv `paperframe clear`. -/
def c1HeadlessEnv : Env :=
  ⟨["paperframe", "clear"], "amd64", none, false, none, fun _ => false, false⟩

/-- C1 witness: the amended statement instantiated at a concrete headless
environment. -/
theorem c1_hw_open_failure_witness :
    (c1HeadlessEnv.goarch ≠ "arm" → hwProbe c1HeadlessEnv = some none) ∧
    displayImageOps none = [] ∧ displayClearOps none = [] ∧
    (c1HeadlessEnv.goarch = "arm" → c1HeadlessEnv.hwNew = none →
      runNew c1HeadlessEnv = some 1) :=
  c1_hw_open_failure c1HeadlessEnv rfl (by decide)

/-- Environment with working hardware on arm and argv `paperframe clear`. -/
def oldClearEnv : Env :=
  ⟨["paperframe", "clear"], "arm", some (), false, none, fun _ => false, false⟩

/-- C9: after a successful `clear` (displayClear cannot fail), the older
variant's run returns exit status 1 where the claim requires 0; the newer
variant returns 0 in the same environment. -/
theorem c9_old_clear_exit_one :
    runOld oldClearEnv = some 1 ∧ runNew oldClearEnv = some 0 := by decide

instance (t : List Ev) : Decidable (seqCompletesBeforeClear t) := by
  unfold seqCompletesBeforeClear
  infer_instance

/-- C7 counterexample: a schedulable interleaving in which the whole
shutdown clear sequence runs before the in-flight display sequence has
completed — the shutdown goroutine's `stopTicker` send is buffered and
nothing in the code makes it wait for the ticker goroutine. -/
theorem c7_counterexample :
    Interleave tickerEvs shutdownEvs badTrace ∧
    ¬ seqCompletesBeforeClear badTrace := by
  constructor
  · exact .left (.left (.right (.right (.right (.right (.right (.right
      (.left (.left .nil)))))))))
  · decide

/-- Environment running the service command with a signal arriving. -/
def serviceEnv : Env :=
  ⟨["paperframe", "service"], "amd64", none, false, none, fun _ => true, true⟩

/-- C7 amended: on a termination signal the shutdown goroutine stops the
ticker, issues exactly one clear sequence and exits with status 0 (the
service exit code is the 0 it sends), but it does not wait for an in-flight
display: some schedulable interleaving runs the whole shutdown clear before
the in-flight display sequence completes. -/
theorem c7_shutdown_no_wait :
    shutdownEvs.countP (fun e => e == Ev.sClear) = 1 ∧
    shutdownEvs.getLast? = some Ev.sExit ∧
    runNew serviceEnv = some 0 ∧
    (∃ t, Interleave tickerEvs shutdownEvs t ∧ ¬ seqCompletesBeforeClear t) := by
  refine ⟨by decide, by decide, by decide, ⟨badTrace, ?_, by decide⟩⟩
  exact .left (.left (.right (.right (.right (.right (.right (.right
    (.left (.left .nil)))))))))

/-! ### Concrete evaluations of the embedded quantizer -/

theorem paletteIndex_white_eval : paletteIndex whiteRGBA = 0 := by decide

theorem paletteIndex_black_eval : paletteIndex blackRGBA = 1 := by decide

theorem pixelBit_inside_eval : pixelBit whiteImg 0 0 = 0 := by decide

theorem pixelBit_outside_eval : pixelBit whiteImg 1 0 = bgColor := by decide
